import Mathlib

/-!
Verification of the Data-Preprocessing backend specification.

The repository ships the React frontend; the backend core (JobManager,
PipelineExecutor, QualityAnalyzer, QuotaLedger) is described by the spec but
its source is not present, so those components are modelled from the spec
(each such definition says so in its doc comment). Frontend behaviour
(login-key sanitisation, job-table status normalisation) is embedded directly
from the JSX/JS sources.
-/

namespace DataPrep

/-! ## Job lifecycle state machine (spec section 4.1) -/

/-- Modelled from the spec: the closed job-status enum of JobManager
(`PENDING`, `PROCESSING`, `COMPLETED`, `FAILED`, `CANCELLED`). -/
inductive JobStatus where
  | pending
  | processing
  | completed
  | failed
  | cancelled
deriving DecidableEq, Repr

/-- Modelled from the spec: the error taxonomy of section 7, restricted to the
errors the claims mention. `invalidStateTransition` carries the current and
the requested state, as the spec requires. -/
inductive JobError where
  | invalidStateTransition (current requested : JobStatus)
  | quotaExceeded
deriving DecidableEq, Repr

/-- Modelled from the spec: the atomic compare-and-set performed by
`execute_job` — succeed with `PROCESSING` iff the observed status is
`PENDING`, otherwise fail with `InvalidStateTransition`. -/
def executeCAS (s : JobStatus) : Except JobError JobStatus :=
  if s = .pending then .ok .processing
  else .error (.invalidStateTransition s .processing)

/-- Modelled from the spec: the atomic compare-and-set performed by
`cancel_job` — succeed with `CANCELLED` iff the observed status is `PENDING`. -/
def cancelCAS (s : JobStatus) : Except JobError JobStatus :=
  if s = .pending then .ok .cancelled
  else .error (.invalidStateTransition s .cancelled)

/-- Modelled from the spec: the transition taken when the pipeline succeeds,
legal only from `PROCESSING`. -/
def completeCAS (s : JobStatus) : Except JobError JobStatus :=
  if s = .processing then .ok .completed
  else .error (.invalidStateTransition s .completed)

/-- Modelled from the spec: the transition taken when the pipeline raises,
legal only from `PROCESSING`. -/
def failCAS (s : JobStatus) : Except JobError JobStatus :=
  if s = .processing then .ok .failed
  else .error (.invalidStateTransition s .failed)

/-- The four operations that can change a job status. -/
inductive JobOp where
  | execute
  | cancel
  | complete
  | fail
deriving DecidableEq, Repr

/-- Apply one operation to a status; a failed compare-and-set leaves the
status unchanged (the loser only receives `InvalidStateTransition`). -/
def applyOp (s : JobStatus) (op : JobOp) : JobStatus :=
  match op with
  | .execute => (executeCAS s).toOption.getD s
  | .cancel => (cancelCAS s).toOption.getD s
  | .complete => (completeCAS s).toOption.getD s
  | .fail => (failCAS s).toOption.getD s

/-! ## Quota ledger and admission (spec sections 4.4 and 7) -/

/-- Modelled from the spec: one QuotaLedger entry — `monthly_quota_mb` and
`used_quota_mb` for one tenant. -/
structure QuotaEntry where
  monthly_quota_mb : ℚ
  used_quota_mb : ℚ
deriving DecidableEq, Repr

/-- Modelled from the spec: JobManager state visible to admission — the
tenant quota entry and the stored jobs (statuses only). -/
structure ManagerState where
  entry : QuotaEntry
  jobs : List JobStatus
deriving DecidableEq, Repr

/-- Modelled from the spec: `create_job` admission — admit iff
`used_quota_mb + estimated_mb ≤ monthly_quota_mb`; on rejection fail with
`QuotaExceeded` and leave the state untouched (no Job is created); on
admission append a fresh `PENDING` job. -/
def create_job (st : ManagerState) (estimated_mb : ℚ) :
    ManagerState × Option JobError :=
  if st.entry.used_quota_mb + estimated_mb ≤ st.entry.monthly_quota_mb then
    ({ st with jobs := st.jobs ++ [.pending] }, none)
  else
    (st, some .quotaExceeded)

/-- Modelled from the spec: the events that touch a tenant ledger —
a job completing with a measured size, a job failing, a job being cancelled,
and the explicit external monthly reset. -/
inductive QuotaEvent where
  | completedJob (size_mb : ℚ)
  | failedJob
  | cancelledJob
  | monthlyReset
deriving DecidableEq, Repr

/-- Modelled from the spec: effect of one event on `used_quota_mb` — only a
completion commits its measured size; failure and cancellation never charge;
the monthly reset zeroes the counter. -/
def applyQuotaEvent (used : ℚ) : QuotaEvent → ℚ
  | .completedJob size_mb => used + size_mb
  | .failedJob => used
  | .cancelledJob => used
  | .monthlyReset => 0

/-- Size carried by an event (zero for the events that carry none). -/
def eventSize : QuotaEvent → ℚ
  | .completedJob size_mb => size_mb
  | _ => 0

/-! ## Tabular datasets and the transformation pipeline (spec section 4.2) -/

/-- Modelled from the spec: one cell of a tabular dataset — a numeric value,
a string value, or a missing cell (empty strings are treated as missing by
type enforcement, so missingness is its own constructor here). -/
inductive Cell where
  | num (q : ℚ)
  | str (s : String)
  | missing
deriving DecidableEq, Repr

/-- A row is the list of its cells, in column order. -/
abbrev Row := List Cell

/-- A dataset is its list of rows. -/
abbrev Dataset := List Row

/-- Walk the rows left to right, keeping a row exactly when it has not been
seen before; `seen` is the set of rows already kept. -/
def dedupAux (seen : List Row) : Dataset → Dataset
  | [] => []
  | r :: rs => if r ∈ seen then dedupAux seen rs else r :: dedupAux (r :: seen) rs

/-- Modelled from the spec: the first-duplicate-removal step — rows identical
across all columns are collapsed, keeping the first occurrence. -/
def removeDuplicates (d : Dataset) : Dataset :=
  dedupAux [] d

/-- Number of rows the duplicate-removal step reports as removed. -/
def duplicatesRemoved (d : Dataset) : ℕ :=
  d.length - (removeDuplicates d).length

/-- Sum of a list of rationals. -/
def sumQ (l : List ℚ) : ℚ := l.foldr (· + ·) 0

/-- Column mean over the listed numeric values (0 for an empty column). -/
def meanQ (l : List ℚ) : ℚ := sumQ l / l.length

/-- Sum of squared deviations from the mean; `sqDevSum l / l.length` is the
population variance, so `sqDevSum l = 0` is exactly zero variance. -/
def sqDevSum (l : List ℚ) : ℚ :=
  sumQ (l.map (fun x => (x - meanQ l) ^ 2))

/-- Modelled from the spec: the z-score outlier test for one numeric value
`x` against its column, values `l`, at threshold `t`. A zero-variance column
is skipped (the test is false, and no division happens at all). Otherwise the
test is the squared form of `|(x − mean)/stddev| > t`, with the population
standard deviation: `(x − mean)² · n > t² · Σ(xᵢ − mean)²`, which for `t ≥ 0`
and positive variance is equivalent to the spec wording. -/
def isOutlierCell (l : List ℚ) (t x : ℚ) : Bool :=
  decide (sqDevSum l ≠ 0 ∧ (x - meanQ l) ^ 2 * l.length > t ^ 2 * sqDevSum l)

/-- The numeric values found in column `j` of the dataset (string and missing
cells do not contribute to the column statistics). -/
def colValues (d : Dataset) (j : ℕ) : List ℚ :=
  d.filterMap (fun r =>
    match r.get? j with
    | some (.num q) => some q
    | _ => none)

/-- Whether the cell in column `j` is a numeric outlier for its column of the
dataset `d` at threshold `t`. -/
def cellIsOutlier (d : Dataset) (t : ℚ) (jc : ℕ × Cell) : Bool :=
  match jc.2 with
  | .num q => isOutlierCell (colValues d jc.1) t q
  | _ => false

/-- A row is dropped when some numeric cell of it is an outlier for its
column, the statistics being taken over the whole input dataset. -/
def rowHasOutlier (d : Dataset) (t : ℚ) (r : Row) : Bool :=
  r.enum.any (cellIsOutlier d t)

/-- Modelled from the spec: the outlier-removal step — drop rows where any
numeric column has `|z| > t`, statistics computed per column over the input. -/
def dropOutliers (t : ℚ) (d : Dataset) : Dataset :=
  d.filter (fun r => !(rowHasOutlier d t r))

/-- The numeric column `[1, 2, 3, 4, 100]` of spec Scenario B, one value per
row. -/
def outlierScenario : Dataset :=
  [[Cell.num 1], [Cell.num 2], [Cell.num 3], [Cell.num 4], [Cell.num 100]]

/-- Modelled from the spec: the PipelineConfig options exercised by the
claims under verification; the remaining section 6 options control steps
(missing values, text cleaning, labels, encoding, dates, normalization) that
no claim refers to, and those steps are not modelled. -/
structure PipelineConfig where
  remove_duplicates : Bool := true
  second_duplicate_removal : Bool := false
  drop_outliers : Bool := false
  outlier_threshold : ℚ := 3
deriving DecidableEq, Repr

/-- Modelled from the spec: the pipeline applies its steps in the fixed
order — first duplicate removal (step 3), outlier removal (step 4), second
duplicate removal (step 10) — each gated by its config flag. -/
def applyPipeline (c : PipelineConfig) (d : Dataset) : Dataset :=
  let d1 := if c.remove_duplicates then removeDuplicates d else d
  let d2 := if c.drop_outliers then dropOutliers c.outlier_threshold d1 else d1
  if c.second_duplicate_removal then removeDuplicates d2 else d2

/-! ## Quality analyzer (spec section 4.3) -/

/-- Modelled from the spec: the counts the four quality fractions are built
from — missing cells over total cells, duplicate rows over total rows,
non-coercible cells over total cells, outlier cells over numeric cells. -/
structure Snapshot where
  totalRows : ℕ
  totalCells : ℕ
  numericCells : ℕ
  missingCells : ℕ
  dupRows : ℕ
  invalidCells : ℕ
  outlierCells : ℕ
deriving DecidableEq, Repr

/-- A fraction `a / b`, taken as 0 on an empty denominator (an empty dataset
has no quality defects). -/
def fracOf (a b : ℕ) : ℚ := if b = 0 then 0 else (a : ℚ) / b

/-- Modelled from the spec: `quality_score` — a weighted composite of the
four fractions, scaled to 0–100, where all-zero fractions yield 100 and each
fraction subtracts proportionally to a fixed weight. The weights (30 missing,
20 duplicates, 30 type consistency, 20 outliers) are the implementation
constants of this model; they sum to 100. -/
def quality_score (s : Snapshot) : ℚ :=
  100 - (30 * fracOf s.missingCells s.totalCells
       + 20 * fracOf s.dupRows s.totalRows
       + 30 * fracOf s.invalidCells s.totalCells
       + 20 * fracOf s.outlierCells s.numericCells)

/-- Whether a cell holds a numeric value. -/
def isNumCell : Cell → Bool
  | .num _ => true
  | _ => false

/-- Whether a cell is missing. -/
def isMissingCell : Cell → Bool
  | .missing => true
  | _ => false

/-- Count of numeric cells of the dataset. -/
def numericCellCount (d : Dataset) : ℕ :=
  (d.map (fun r => r.countP isNumCell)).sum

/-- Count of missing cells of the dataset. -/
def missingCellCount (d : Dataset) : ℕ :=
  (d.map (fun r => r.countP isMissingCell)).sum

/-- Count of numeric cells that are z-score outliers for their column at the
default reporting threshold 3 (spec: the outlier fraction is evaluated at the
default threshold for reporting even when removal is disabled). -/
def outlierCellCount (d : Dataset) : ℕ :=
  (d.map (fun r => r.enum.countP (cellIsOutlier d 3))).sum

/-- Modelled from the spec: the snapshot the analyzer derives from a dataset.
Type enforcement is not modelled (no claim refers to it), so the
non-coercible count is 0 for every dataset of this model. -/
def snapshotOf (d : Dataset) : Snapshot where
  totalRows := d.length
  totalCells := (d.map List.length).sum
  numericCells := numericCellCount d
  missingCells := missingCellCount d
  dupRows := d.length - (removeDuplicates d).length
  invalidCells := 0
  outlierCells := outlierCellCount d

/-- Ten single-column rows, nine distinct strings and one missing cell:
missing fraction 1/10, no duplicates, no numeric cells. -/
def scoreSampleLarge : Dataset :=
  [[Cell.str ("a")], [Cell.str ("b")], [Cell.str ("c")], [Cell.str ("d")], [Cell.str ("e")],
   [Cell.str ("f")], [Cell.str ("g")], [Cell.str ("h")], [Cell.str ("i")], [Cell.missing]]

/-- Two single-column rows, one missing cell and one string: missing fraction
1/2, no duplicates, no numeric cells — no more defect cells than
`scoreSampleLarge` in every category, yet a lower score. -/
def scoreSampleSmall : Dataset :=
  [[Cell.missing], [Cell.str ("a")]]

/-- Modelled from the spec: the QualityMetrics fields attached to a completed
job that the determinism claim compares. -/
structure QualityMetrics where
  quality_score : ℚ
  total_records : ℕ
  missing_values_percent : ℚ
deriving DecidableEq, Repr

/-- Metrics computed from a (cleaned) dataset snapshot. -/
def metricsOf (d : Dataset) : QualityMetrics where
  quality_score := quality_score (snapshotOf d)
  total_records := d.length
  missing_values_percent := 100 * fracOf (missingCellCount d) ((d.map List.length).sum)

/-- Modelled from the spec: what one pipeline execution of a job produces —
the untouched original snapshot, the cleaned dataset, and the metrics. The
executor never mutates the original dataset in place; here the original is
carried through unchanged while every step builds a new dataset. -/
structure ExecutionResult where
  original : Dataset
  cleaned : Dataset
  metrics : QualityMetrics
deriving DecidableEq, Repr

/-- Modelled from the spec: run the pipeline for one job — apply the steps to
the input under the job config, analyze the cleaned output, and keep the
original snapshot for the preview/comparison surface. -/
def runJob (d : Dataset) (c : PipelineConfig) : ExecutionResult where
  original := d
  cleaned := applyPipeline c d
  metrics := metricsOf (applyPipeline c d)

/-! ## Frontend: login-key sanitisation (Login.jsx) and the request
interceptor (api/client.js) -/

/-- A character kept by the sanitising regex `[^ -~]` of `handleLogin`:
printable ASCII, space through tilde. -/
def printableAscii (c : Char) : Bool :=
  0x20 ≤ c.toNat && c.toNat ≤ 0x7E

/-- Strip leading and trailing spaces. After the printable-ASCII filter the
only JavaScript-whitespace character that can remain is the space, so this is
exactly what `.trim()` does to the filtered string. -/
def trimSpaces (l : List Char) : List Char :=
  ((l.dropWhile (· = ' ')).reverse.dropWhile (· = ' ')).reverse

/-- Sanitisation performed by handleLogin in Login.jsx — replace the regex
class of non-printable-ASCII characters by nothing, then trim: drop every
character outside printable ASCII, then strip outer whitespace. -/
def sanitizeKey (s : String) : String :=
  String.mk (trimSpaces (s.data.filter printableAscii))

/-- A character the JavaScript `String.prototype.trim` treats as whitespace
(the WhiteSpace and LineTerminator productions). -/
def jsWhitespace (c : Char) : Bool :=
  c.toNat ∈ [9, 10, 11, 12, 13, 32, 0xA0, 0x1680, 0x2028, 0x2029,
              0x202F, 0x205F, 0x3000, 0xFEFF]
  || (0x2000 ≤ c.toNat && c.toNat ≤ 0x200A)

/-- The login handler of Login.jsx, as a function of the entered string,
the verification outcome of the clients/me probe, and the stored key. The
early-return guard on a trimmed-empty input is the all-whitespace test; an
empty sanitised key throws before setItem and the catch removes any stored
key; a failed verification also removes the stored key; on success the
sanitised key stays stored and the success callback fires (the true flag). -/
def handleLogin (verifyOk : Bool) (input : String) (store : Option String) :
    Option String × Bool :=
  if input.data.all jsWhitespace then (store, false)
  else
    let cleanKey := sanitizeKey input
    if cleanKey = "" then (none, false)
    else if verifyOk then (some cleanKey, true)
    else (none, false)

/-- The request interceptor of api/client.js: read the stored key under
the localStorage slot data_prep_api_key and, when truthy (present and
nonempty), attach it as the `X-API-Key` header. Returns the header value. -/
def requestApiKeyHeader (store : Option String) : Option String :=
  match store with
  | some k => if k = "" then none else some k
  | none => none

/-! ## Frontend: job-table status normalisation (JobTable.jsx) -/

/-- ASCII upper-casing of one character, as `toUpperCase` acts on the ASCII
range (job statuses are ASCII strings). -/
def jsToUpperChar (c : Char) : Char :=
  if 0x61 ≤ c.toNat && c.toNat ≤ 0x7A then Char.ofNat (c.toNat - 0x20) else c

/-- ASCII upper-casing of a string. -/
def jsToUpper (s : String) : String :=
  String.mk (s.data.map jsToUpperChar)

/-- The helper norm of JobTable.jsx — String of (s or the empty string),
upper-cased: a null or undefined (or empty) status becomes the empty string,
anything else is upper-cased. -/
def jsNorm (status : Option String) : String :=
  jsToUpper (status.getD (""))

/-- The Run action is rendered iff the normalised status equals PENDING. -/
def showRunAction (status : Option String) : Bool :=
  jsNorm status == "PENDING"

/-- The Download (and the other COMPLETED-only) actions are rendered iff
the normalised status equals COMPLETED. -/
def showDownloadAction (status : Option String) : Bool :=
  jsNorm status == "COMPLETED"

/-! ## Theorems -/

/-- C1: `execute_job` succeeds exactly when the status observed by its atomic
check is `PENDING`, `cancel_job` likewise; every other attempted transition
fails with `InvalidStateTransition` naming the current and requested state;
and no single operation moves a `PENDING` job directly to `COMPLETED` or
`FAILED` (both require `PROCESSING` first). -/
theorem job_state_machine_safety (s : JobStatus) (op : JobOp) :
    ((executeCAS s).isOk ↔ s = .pending)
    ∧ ((cancelCAS s).isOk ↔ s = .pending)
    ∧ (s ≠ .pending → executeCAS s = .error (.invalidStateTransition s .processing))
    ∧ (s ≠ .pending → cancelCAS s = .error (.invalidStateTransition s .cancelled))
    ∧ (s ≠ .processing → completeCAS s = .error (.invalidStateTransition s .completed))
    ∧ (s ≠ .processing → failCAS s = .error (.invalidStateTransition s .failed))
    ∧ applyOp .pending op ≠ .completed
    ∧ applyOp .pending op ≠ .failed := by
  cases s <;> cases op <;>
    simp [executeCAS, cancelCAS, completeCAS, failCAS, applyOp, Except.isOk,
      Except.toBool, Except.toOption]

/-- Witness for C1 at a concrete state: an execute attempt on a `COMPLETED`
job fails with `InvalidStateTransition`, and no single step takes `PENDING`
to `COMPLETED`. -/
theorem job_state_machine_safety_witness :
    executeCAS .completed = .error (.invalidStateTransition .completed .processing)
    ∧ applyOp .pending .execute ≠ .completed :=
  ⟨(job_state_machine_safety .completed .execute).2.2.1 (by decide),
   (job_state_machine_safety .completed .execute).2.2.2.2.2.2.1⟩

/-- C2: the pipeline is a deterministic function of the dataset and the
config — two runs on an identical pair produce identical cleaned datasets
and identical QualityMetrics. -/
theorem pipeline_deterministic (d₁ d₂ : Dataset) (c₁ c₂ : PipelineConfig)
    (hd : d₁ = d₂) (hc : c₁ = c₂) :
    runJob d₁ c₁ = runJob d₂ c₂ := by
  subst hd hc
  rfl

/-- Witness for C2 on a concrete dataset and config. -/
theorem pipeline_deterministic_witness :
    runJob [[Cell.num 1, Cell.missing]] {} = runJob [[Cell.num 1, Cell.missing]] {} :=
  pipeline_deterministic _ _ _ _ rfl rfl

/-- C4: whenever `used_quota_mb + estimated_mb` exceeds `monthly_quota_mb`,
`create_job` fails with `QuotaExceeded` and the state — the job store
included — is unchanged; concretely, a tenant at 95 of 100 MB is rejected
for a 10 MB job and admitted for a 4 MB job. -/
theorem create_job_quota_admission (st : ManagerState) (est : ℚ)
    (h : st.entry.monthly_quota_mb < st.entry.used_quota_mb + est) :
    create_job st est = (st, some .quotaExceeded)
    ∧ create_job ⟨⟨100, 95⟩, []⟩ 10 = (⟨⟨100, 95⟩, []⟩, some .quotaExceeded)
    ∧ create_job ⟨⟨100, 95⟩, []⟩ 4 = (⟨⟨100, 95⟩, [.pending]⟩, none) := by
  refine ⟨?_, by norm_num [create_job], by norm_num [create_job]⟩
  unfold create_job
  rw [if_neg (not_le.mpr h)]

/-- Witness for C4: the 95-of-100 tenant with a 10 MB estimate is over
quota, so the generic part applies to it. -/
theorem create_job_quota_admission_witness :
    create_job ⟨⟨100, 95⟩, []⟩ 10 = (⟨⟨100, 95⟩, []⟩, some .quotaExceeded) :=
  (create_job_quota_admission ⟨⟨100, 95⟩, []⟩ 10 (by norm_num)).1

/-- C5: `used_quota_mb` never decreases except via the explicit monthly
reset; a strict increase happens only through a job completion; jobs ending
`FAILED` or `CANCELLED` leave it untouched. -/
theorem used_quota_monotone (used : ℚ) (ev : QuotaEvent)
    (hu : 0 ≤ used) (hsz : 0 ≤ eventSize ev) :
    (ev ≠ .monthlyReset → used ≤ applyQuotaEvent used ev)
    ∧ (used < applyQuotaEvent used ev → ∃ m, ev = .completedJob m)
    ∧ applyQuotaEvent used .failedJob = used
    ∧ applyQuotaEvent used .cancelledJob = used := by
  cases ev with
  | completedJob m =>
    simp only [applyQuotaEvent, eventSize] at hsz ⊢
    exact ⟨fun _ => by linarith, fun _ => ⟨m, rfl⟩, trivial, trivial⟩
  | failedJob =>
    simp only [applyQuotaEvent]
    exact ⟨fun _ => le_refl _, fun h => absurd h (lt_irrefl _), trivial, trivial⟩
  | cancelledJob =>
    simp only [applyQuotaEvent]
    exact ⟨fun _ => le_refl _, fun h => absurd h (lt_irrefl _), trivial, trivial⟩
  | monthlyReset =>
    simp only [applyQuotaEvent]
    exact ⟨fun h => absurd rfl h, fun h => absurd h (not_lt.mpr hu), trivial, trivial⟩

/-- Witness for C5 at a concrete ledger value and a concrete completion. -/
theorem used_quota_monotone_witness :
    ((QuotaEvent.completedJob 4 ≠ QuotaEvent.monthlyReset →
        (95 : ℚ) ≤ applyQuotaEvent 95 (.completedJob 4))
      ∧ ((95 : ℚ) < applyQuotaEvent 95 (.completedJob 4) →
            ∃ m, QuotaEvent.completedJob (4 : ℚ) = .completedJob m)
      ∧ applyQuotaEvent (95 : ℚ) .failedJob = 95
      ∧ applyQuotaEvent (95 : ℚ) .cancelledJob = 95) :=
  used_quota_monotone 95 (.completedJob 4) (by norm_num) (by norm_num [eventSize])

/-- C8: the executor never mutates the original dataset — the original
snapshot carried by the execution result is exactly the input dataset, so
original and cleaned can both be observed afterwards. -/
theorem executor_preserves_original (d : Dataset) (c : PipelineConfig) :
    (runJob d c).original = d :=
  rfl

/-- Every row produced by `dedupAux seen` avoids `seen`. -/
theorem dedupAux_not_mem_seen {x : Row} :
    ∀ (d : Dataset) (seen : List Row), x ∈ dedupAux seen d → x ∉ seen := by
  intro d
  induction d with
  | nil =>
    intro seen h
    simp [dedupAux] at h
  | cons r rs ih =>
    intro seen h
    simp only [dedupAux] at h
    by_cases hr : r ∈ seen
    · rw [if_pos hr] at h
      exact ih seen h
    · rw [if_neg hr] at h
      rcases List.mem_cons.mp h with h1 | h2
      · subst h1
        exact hr
      · intro hx
        exact (ih (r :: seen) h2) (List.mem_cons_of_mem r hx)

/-- The output of `dedupAux` has no duplicate rows. -/
theorem dedupAux_nodup : ∀ (d : Dataset) (seen : List Row), (dedupAux seen d).Nodup := by
  intro d
  induction d with
  | nil =>
    intro seen
    simp [dedupAux]
  | cons r rs ih =>
    intro seen
    simp only [dedupAux]
    split
    · exact ih seen
    · rename_i hr
      refine List.nodup_cons.mpr ⟨fun hmem => ?_, ih (r :: seen)⟩
      exact (dedupAux_not_mem_seen rs (r :: seen) hmem) (List.mem_cons_self r seen)

/-- On a duplicate-free dataset disjoint from `seen`, `dedupAux` is the
identity. -/
theorem dedupAux_eq_self : ∀ (d : Dataset) (seen : List Row), d.Nodup →
    (∀ x ∈ d, x ∉ seen) → dedupAux seen d = d := by
  intro d
  induction d with
  | nil =>
    intro seen _ _
    rfl
  | cons r rs ih =>
    intro seen hnd hdisj
    have hr : r ∉ seen := hdisj r (List.mem_cons_self r rs)
    simp only [dedupAux]
    rw [if_neg hr]
    congr 1
    apply ih (r :: seen) (List.nodup_cons.mp hnd).2
    intro x hx hmem
    rcases List.mem_cons.mp hmem with h1 | h2
    · subst h1
      exact (List.nodup_cons.mp hnd).1 hx
    · exact hdisj x (List.mem_cons_of_mem r hx) h2

/-- C7: the first-duplicate-removal step is idempotent — applying it to its
own output changes nothing, so the second application removes zero rows. -/
theorem dedup_idempotent (d : Dataset) :
    removeDuplicates (removeDuplicates d) = removeDuplicates d
    ∧ duplicatesRemoved (removeDuplicates d) = 0 := by
  have h : removeDuplicates (removeDuplicates d) = removeDuplicates d := by
    unfold removeDuplicates
    exact dedupAux_eq_self _ [] (dedupAux_nodup d []) (fun x _ => List.not_mem_nil x)
  refine ⟨h, ?_⟩
  unfold duplicatesRemoved
  rw [h, Nat.sub_self]

/-- Column statistics of the Scenario B column `[1, 2, 3, 4, 100]`: the
extracted values, their mean 22, and their squared-deviation sum 7610. -/
theorem outlierScenario_stats :
    colValues outlierScenario 0 = [1, 2, 3, 4, 100]
    ∧ meanQ [1, 2, 3, 4, 100] = 22
    ∧ sqDevSum [1, 2, 3, 4, 100] = 7610 := by
  refine ⟨?_, ?_, ?_⟩
  · norm_num [colValues, outlierScenario, List.filterMap]
  · norm_num [meanQ, sumQ]
  · norm_num [sqDevSum, meanQ, sumQ]

/-- C6 counterexample: at threshold 2.0 the column `[1, 2, 3, 4, 100]` loses
no row at all — the largest squared z-score is `78² · 5 / 7610 ≈ 1.9994² < 2²`
— so 5 rows remain, not the 4 the claim asserts. -/
theorem outlier_threshold_counterexample :
    dropOutliers 2 outlierScenario = outlierScenario
    ∧ (dropOutliers 2 outlierScenario).length = 5 := by
  have hc := outlierScenario_stats.1
  have hm := outlierScenario_stats.2.1
  have hs := outlierScenario_stats.2.2
  have h : dropOutliers 2 outlierScenario = outlierScenario := by
    apply List.filter_eq_self.mpr
    intro r hr
    fin_cases hr <;>
    · simp [rowHasOutlier, cellIsOutlier, List.enum, List.enumFrom, hc,
        isOutlierCell, hs, hm]
      norm_num
  refine ⟨h, ?_⟩
  rw [h]
  rfl

/-- C6 as amended: the outlier step keeps exactly the rows in which no
numeric column cell has `|z|` above the threshold (columns statistics over
the whole input); a zero-variance column never flags a cell (and no division
is performed); and on `[1, 2, 3, 4, 100]` a threshold of 1.9 — not the 2.0 of
the claim — drops exactly the row containing 100, leaving 4 rows. -/
theorem outlier_step_characterisation (d : Dataset) (t : ℚ) (r : Row)
    (l : List ℚ) (x : ℚ) (hz : sqDevSum l = 0) :
    (r ∈ dropOutliers t d ↔ r ∈ d ∧ rowHasOutlier d t r = false)
    ∧ (rowHasOutlier d t r = true ↔
        ∃ j q, r.get? j = some (Cell.num q)
          ∧ isOutlierCell (colValues d j) t q = true)
    ∧ isOutlierCell l t x = false
    ∧ dropOutliers (19/10) outlierScenario =
        [[Cell.num 1], [Cell.num 2], [Cell.num 3], [Cell.num 4]] := by
  have hc := outlierScenario_stats.1
  have hm := outlierScenario_stats.2.1
  have hs := outlierScenario_stats.2.2
  refine ⟨?_, ?_, ?_, ?_⟩
  · simp [dropOutliers, List.mem_filter]
  · rw [rowHasOutlier, List.any_eq_true]
    constructor
    · rintro ⟨⟨j, c⟩, hmem, hp⟩
      have hget := List.mem_enum_iff_get?.mp hmem
      cases c with
      | num q => exact ⟨j, q, hget, by simpa [cellIsOutlier] using hp⟩
      | str s => simp [cellIsOutlier] at hp
      | missing => simp [cellIsOutlier] at hp
    · rintro ⟨j, q, hget, hout⟩
      exact ⟨(j, Cell.num q), List.mem_enum_iff_get?.mpr hget,
        by simpa [cellIsOutlier] using hout⟩
  · simp [isOutlierCell, hz]
  · have b1 : rowHasOutlier outlierScenario (19/10) [Cell.num 1] = false := by
      simp [rowHasOutlier, cellIsOutlier, List.enum, List.enumFrom, hc,
        isOutlierCell, hs, hm]
      norm_num
    have b2 : rowHasOutlier outlierScenario (19/10) [Cell.num 2] = false := by
      simp [rowHasOutlier, cellIsOutlier, List.enum, List.enumFrom, hc,
        isOutlierCell, hs, hm]
      norm_num
    have b3 : rowHasOutlier outlierScenario (19/10) [Cell.num 3] = false := by
      simp [rowHasOutlier, cellIsOutlier, List.enum, List.enumFrom, hc,
        isOutlierCell, hs, hm]
      norm_num
    have b4 : rowHasOutlier outlierScenario (19/10) [Cell.num 4] = false := by
      simp [rowHasOutlier, cellIsOutlier, List.enum, List.enumFrom, hc,
        isOutlierCell, hs, hm]
      norm_num
    have b5 : rowHasOutlier outlierScenario (19/10) [Cell.num 100] = true := by
      simp [rowHasOutlier, cellIsOutlier, List.enum, List.enumFrom, hc,
        isOutlierCell, hs, hm]
      norm_num
    show List.filter _ outlierScenario = _
    rw [show outlierScenario =
      [[Cell.num 1], [Cell.num 2], [Cell.num 3], [Cell.num 4], [Cell.num 100]]
      from rfl] at b1 b2 b3 b4 b5 ⊢
    simp [List.filter_cons, b1, b2, b3, b4, b5]

/-- Witness for C6 (amended): a zero-variance column (`[5, 5]`) flags
nothing, and the 1.9-threshold run on Scenario B keeps exactly 4 rows. -/
theorem outlier_step_characterisation_witness :
    isOutlierCell [5, 5] 2 5 = false
    ∧ dropOutliers (19/10) outlierScenario =
        [[Cell.num 1], [Cell.num 2], [Cell.num 3], [Cell.num 4]] := by
  have h := outlier_step_characterisation [] 2 [] [5, 5] 5
    (by norm_num [sqDevSum, meanQ, sumQ])
  exact ⟨h.2.2.1, h.2.2.2⟩

/-- Defect fractions are never negative. -/
theorem fracOf_nonneg (a b : ℕ) : 0 ≤ fracOf a b := by
  unfold fracOf
  split
  · exact le_refl 0
  · positivity

/-- A defect fraction of at most its denominator is at most one. -/
theorem fracOf_le_one (a b : ℕ) (h : a ≤ b) : fracOf a b ≤ 1 := by
  unfold fracOf
  split
  · exact zero_le_one
  · rename_i hb
    rw [div_le_one (by exact_mod_cast Nat.pos_of_ne_zero hb)]
    exact_mod_cast h

/-- Defect fractions are monotone in the defect count. -/
theorem fracOf_mono {a b : ℕ} (n : ℕ) (h : a ≤ b) : fracOf a n ≤ fracOf b n := by
  unfold fracOf
  split
  · exact le_refl 0
  · rename_i hn
    have hn' : (0 : ℚ) < n := by exact_mod_cast Nat.pos_of_ne_zero hn
    exact (div_le_div_iff_of_pos_right hn').mpr (by exact_mod_cast h)

/-- A dataset has no more missing cells than cells. -/
theorem missingCellCount_le (d : Dataset) :
    missingCellCount d ≤ (d.map List.length).sum := by
  unfold missingCellCount
  exact List.sum_le_sum fun r _ => List.countP_le_length _

/-- A dataset has no more outlier cells than numeric cells. -/
theorem outlierCellCount_le (d : Dataset) :
    outlierCellCount d ≤ numericCellCount d := by
  unfold outlierCellCount numericCellCount
  refine List.sum_le_sum fun r _ => ?_
  have h1 : r.enum.countP (cellIsOutlier d 3)
      ≤ r.enum.countP (fun jc => isNumCell jc.2) := by
    refine List.countP_mono_left fun jc _ hp => ?_
    cases hc : jc.2 <;> simp [cellIsOutlier, hc, isNumCell] at hp ⊢
  have h2 : r.enum.countP (fun jc => isNumCell jc.2) = r.countP isNumCell := by
    have h := List.countP_map isNumCell (Prod.snd : ℕ × Cell → Cell) r.enum
    rw [List.enum_map_snd] at h
    exact h.symm
  rw [h2] at h1
  exact h1

/-- C3 as amended: the quality score of every dataset lies in [0, 100]; and
between two snapshots with the same totals (rows, cells, numeric cells) —
the situation described by the monotonicity gloss of the spec, where a negative
fraction increases exactly when its count does — no more missing, duplicate,
invalid, or outlier cells never yields a lower score. -/
theorem quality_score_bounds_monotone (d : Dataset) (s t : Snapshot)
    (hrows : t.totalRows = s.totalRows) (hcells : t.totalCells = s.totalCells)
    (hnum : t.numericCells = s.numericCells)
    (hm : t.missingCells ≤ s.missingCells) (hd : t.dupRows ≤ s.dupRows)
    (hi : t.invalidCells ≤ s.invalidCells) (ho : t.outlierCells ≤ s.outlierCells) :
    (0 ≤ quality_score (snapshotOf d) ∧ quality_score (snapshotOf d) ≤ 100)
    ∧ quality_score s ≤ quality_score t := by
  constructor
  · have b1 : fracOf (snapshotOf d).missingCells (snapshotOf d).totalCells ≤ 1 :=
      fracOf_le_one _ _ (missingCellCount_le d)
    have b2 : fracOf (snapshotOf d).dupRows (snapshotOf d).totalRows ≤ 1 :=
      fracOf_le_one _ _ (Nat.sub_le _ _)
    have b3 : fracOf (snapshotOf d).invalidCells (snapshotOf d).totalCells ≤ 1 :=
      fracOf_le_one _ _ (Nat.zero_le _)
    have b4 : fracOf (snapshotOf d).outlierCells (snapshotOf d).numericCells ≤ 1 :=
      fracOf_le_one _ _ (outlierCellCount_le d)
    have n1 := fracOf_nonneg (snapshotOf d).missingCells (snapshotOf d).totalCells
    have n2 := fracOf_nonneg (snapshotOf d).dupRows (snapshotOf d).totalRows
    have n3 := fracOf_nonneg (snapshotOf d).invalidCells (snapshotOf d).totalCells
    have n4 := fracOf_nonneg (snapshotOf d).outlierCells (snapshotOf d).numericCells
    unfold quality_score
    constructor <;> linarith
  · have m1 : fracOf t.missingCells t.totalCells ≤ fracOf s.missingCells s.totalCells := by
      rw [hcells]
      exact fracOf_mono _ hm
    have m2 : fracOf t.dupRows t.totalRows ≤ fracOf s.dupRows s.totalRows := by
      rw [hrows]
      exact fracOf_mono _ hd
    have m3 : fracOf t.invalidCells t.totalCells ≤ fracOf s.invalidCells s.totalCells := by
      rw [hcells]
      exact fracOf_mono _ hi
    have m4 : fracOf t.outlierCells t.numericCells ≤ fracOf s.outlierCells s.numericCells := by
      rw [hnum]
      exact fracOf_mono _ ho
    unfold quality_score
    linarith

/-- Witness for C3 (amended) at a concrete dataset and concrete snapshots. -/
theorem quality_score_bounds_monotone_witness :
    (0 ≤ quality_score (snapshotOf [[Cell.num 1]])
      ∧ quality_score (snapshotOf [[Cell.num 1]]) ≤ 100)
    ∧ quality_score ⟨2, 2, 0, 1, 0, 0, 0⟩ ≤ quality_score ⟨2, 2, 0, 0, 0, 0, 0⟩ :=
  quality_score_bounds_monotone [[Cell.num 1]] ⟨2, 2, 0, 1, 0, 0, 0⟩ ⟨2, 2, 0, 0, 0, 0, 0⟩
    rfl rfl rfl (by norm_num) (le_refl 0) (le_refl 0) (le_refl 0)

/-- C3 counterexample: `scoreSampleSmall` has no more missing, duplicate,
invalid, or outlier cells than `scoreSampleLarge`, yet its quality score is
strictly lower (85 against 97) — counts alone do not order scores when the
dataset sizes differ. -/
theorem quality_monotonicity_counterexample :
    ((snapshotOf scoreSampleSmall).missingCells ≤ (snapshotOf scoreSampleLarge).missingCells
      ∧ (snapshotOf scoreSampleSmall).dupRows ≤ (snapshotOf scoreSampleLarge).dupRows
      ∧ (snapshotOf scoreSampleSmall).invalidCells ≤ (snapshotOf scoreSampleLarge).invalidCells
      ∧ (snapshotOf scoreSampleSmall).outlierCells ≤ (snapshotOf scoreSampleLarge).outlierCells)
    ∧ quality_score (snapshotOf scoreSampleSmall) < quality_score (snapshotOf scoreSampleLarge) := by
  have hL : snapshotOf scoreSampleLarge = ⟨10, 10, 0, 1, 0, 0, 0⟩ := by decide
  have hS : snapshotOf scoreSampleSmall = ⟨2, 2, 0, 1, 0, 0, 0⟩ := by decide
  rw [hL, hS]
  refine ⟨⟨le_refl 1, le_refl 0, le_refl 0, le_refl 0⟩, ?_⟩
  norm_num [quality_score, fracOf]

/-- C9: starting from an empty localStorage, whatever key login persists is
exactly the entered string with every character outside printable ASCII
removed and then trimmed — and that is then the `X-API-Key` header value;
when the sanitised result is empty, no key remains stored and login fails. -/
theorem login_key_sanitisation (input : String) (verifyOk : Bool) :
    ((handleLogin verifyOk input none).2 = true →
      (handleLogin verifyOk input none).1 = some (sanitizeKey input)
      ∧ requestApiKeyHeader ((handleLogin verifyOk input none).1)
          = some (sanitizeKey input))
    ∧ (sanitizeKey input = "" →
      (handleLogin verifyOk input none).1 = none
      ∧ (handleLogin verifyOk input none).2 = false)
    ∧ ((handleLogin verifyOk input none).1 = some (sanitizeKey input)
      ∨ (handleLogin verifyOk input none).1 = none) := by
  unfold handleLogin
  by_cases hg : input.data.all jsWhitespace
  · simp [hg]
  · by_cases hc : sanitizeKey input = ""
    · simp [hg, hc]
    · cases verifyOk
      · simp [hg, hc]
      · simp [hg, hc, requestApiKeyHeader]

/-- Witness for C9: a key with a leading space, an interior tab and a
trailing newline is stored and attached in sanitised form. -/
theorem login_key_sanitisation_witness :
    (handleLogin true (" dp_live_a\tb\n") none).1 = some (sanitizeKey (" dp_live_a\tb\n"))
    ∧ requestApiKeyHeader ((handleLogin true (" dp_live_a\tb\n") none).1)
        = some (sanitizeKey (" dp_live_a\tb\n")) :=
  (login_key_sanitisation (" dp_live_a\tb\n") true).1 (by decide)

/-- C10: the job table normalises a status by taking String of (status or
the empty string) and upper-casing it — a status in any letter case behaves
as its uppercase state (for example a lowercase status string enables exactly
the COMPLETED-only actions such as Download), while a null or undefined
status becomes the empty string and enables neither Run nor Download. -/
theorem job_status_normalisation (s : String) :
    jsNorm (some s) = jsToUpper s
    ∧ jsNorm none = ""
    ∧ showRunAction none = false
    ∧ showDownloadAction none = false
    ∧ showDownloadAction (some ("completed")) = true
    ∧ showRunAction (some ("pending")) = true
    ∧ showDownloadAction (some s) = (jsToUpper s == "COMPLETED")
    ∧ showRunAction (some s) = (jsToUpper s == "PENDING") := by
  refine ⟨rfl, ?_, ?_, ?_, ?_, ?_, rfl, rfl⟩ <;> decide

end DataPrep
